import Mathlib

/-!
Shallow embedding of the mesh-generation notebook (CE5304 ModelGeo).

The notebook builds three dictionaries from a fixed set of building
parameters: `NODES` (node id ↦ coordinates), `BEAMS` and `COLUMNS`
(element id ↦ attribute row).  All Python divisions are on floats; we
model the arithmetic exactly over `ℚ`, so node identifiers (which mix
`1000*i` with the raw ratio `y_length/beamSpacingY + 1`) are rationals,
while element identifiers (pure integer arithmetic in the source) are
naturals.  Python `range(1, m)` is modelled by `List.range' 1 n` with
`n = m - 1` clamped at zero, which matches the empty-range behaviour for
non-positive bounds.
-/

/-- The input variables of the notebook, in source order. -/
structure Params where
  storyHeight : ℚ
  numStories : ℕ
  x_length : ℚ
  y_length : ℚ
  baySizeX : ℚ
  baySizeY : ℚ
  beamSpacingX : ℚ
  beamSpacingY : ℚ
deriving DecidableEq

/-- A parameter set is valid when every quantity is strictly positive
(the story count is a natural, so positivity is `1 ≤ S`). -/
def Params.Valid (p : Params) : Prop :=
  0 < p.storyHeight ∧ 1 ≤ p.numStories ∧ 0 < p.x_length ∧ 0 < p.y_length ∧
    0 < p.baySizeX ∧ 0 < p.baySizeY ∧ 0 < p.beamSpacingX ∧ 0 < p.beamSpacingY

instance (p : Params) : Decidable p.Valid := by
  unfold Params.Valid; infer_instance

/-- Number of x grid lines: the node loop `range(1, ceil(x_length/beamSpacingX)+2)`
runs over `j = 1..nx`. -/
def nx (p : Params) : ℕ := (Int.ceil (p.x_length / p.beamSpacingX) + 1).toNat

/-- Number of y grid lines: the node loop `range(1, ceil(y_length/beamSpacingY)+2)`
runs over `k = 1..ny`. -/
def ny (p : Params) : ℕ := (Int.ceil (p.y_length / p.beamSpacingY) + 1).toNat

/-- The raw (possibly non-integer) ratio `y_length/beamSpacingY + 1` used as
the x-line offset multiplier in every node-id formula of the notebook. -/
def rawNy (p : Params) : ℚ := p.y_length / p.beamSpacingY + 1

/-- Node identifier: `n = 1000*i + (j-1)*(y_length/beamSpacingY+1) + k`. -/
def nodeId (p : Params) (i j k : ℕ) : ℚ :=
  1000 * i + ((j : ℚ) - 1) * rawNy p + k

/-- Node coordinates: `x = (j-1)*beamSpacingX`, `y = (k-1)*beamSpacingY`,
`z = (i-1)*storyHeight`. -/
def nodeCoord (p : Params) (i j k : ℕ) : ℚ × ℚ × ℚ :=
  (((j : ℚ) - 1) * p.beamSpacingX, ((k : ℚ) - 1) * p.beamSpacingY,
    ((i : ℚ) - 1) * p.storyHeight)

/-- The `NODES` dictionary as the list of assignments performed by the three
nested loops, in iteration order. -/
def NODES (p : Params) : List (ℚ × (ℚ × ℚ × ℚ)) :=
  (List.range' 1 p.numStories).flatMap fun i =>
    (List.range' 1 (nx p)).flatMap fun j =>
      (List.range' 1 (ny p)).map fun k =>
        (nodeId p i j k, nodeCoord p i j k)

/-- The set of (level, x-line, y-line) triples the node loops iterate over. -/
def nodeTriples (p : Params) : Finset (ℕ × ℕ × ℕ) :=
  Finset.Icc 1 p.numStories ×ˢ Finset.Icc 1 (nx p) ×ˢ Finset.Icc 1 (ny p)

/-- The set of node identifiers produced (the key set of `NODES`). -/
def nodeIdSet (p : Params) : Finset ℚ :=
  (nodeTriples p).image fun t => nodeId p t.1 t.2.1 t.2.2

/-- The number of distinct node identifiers, i.e. `len(NODES)`. -/
def nodeCount (p : Params) : ℕ := (nodeIdSet p).card

/-- The notebook's example parameters. -/
def exampleParams : Params := ⟨18, 4, 120, 120, 30, 30, 30, 10⟩

/-- A SkyCiv-style element attribute row, in the column order of the
notebook's `BEAMS`/`COLUMNS` dictionary values. -/
structure Element where
  nodeA : ℚ
  nodeB : ℚ
  typ : ℕ
  sectID : ℕ
  rot : ℚ
  fixA : String
  fixB : String
  offAX : ℚ
  offAY : ℚ
  offAZ : ℚ
  offBX : ℚ
  offBY : ℚ
  offBZ : ℚ
  cbl : ℕ
  tc : ℕ
deriving DecidableEq

/-- The constant attribute block written for every beam
(`typ=1, sectID=1, rot=0, fixA=fixB='FFFFFR'`, zero offsets, `cbl=tc=0`). -/
def beamRow (nodeA nodeB : ℚ) : Element :=
  ⟨nodeA, nodeB, 1, 1, 0, "FFFFFR", "FFFFFR", 0, 0, 0, 0, 0, 0, 0, 0⟩

/-- The constant attribute block written for every column
(`fixA=fixB='FFFFFF'`, otherwise as for beams). -/
def columnRow (nodeA nodeB : ℚ) : Element :=
  ⟨nodeA, nodeB, 1, 1, 0, "FFFFFF", "FFFFFF", 0, 0, 0, 0, 0, 0, 0, 0⟩

/-- Upper bound of the Pass A (transverse) beam `k` loop:
`range(1, ceil(y_length/beamSpacingY)+1)` runs over `k = 1..kMaxA`. -/
def kMaxA (p : Params) : ℕ := (Int.ceil (p.y_length / p.beamSpacingY)).toNat

/-- Upper bound of the Pass B (longitudinal) beam `j` loop:
`range(1, ceil(x_length/beamSpacingX)+1)` runs over `j = 1..jMaxB`. -/
def jMaxB (p : Params) : ℕ := (Int.ceil (p.x_length / p.beamSpacingX)).toNat

/-- Pass A beam identifier: `mID = 10000*(i+1) + 1000*j + k` (pure integer
arithmetic in the source). -/
def beamAId (i j k : ℕ) : ℕ := 10000 * (i + 1) + 1000 * j + k

/-- Pass A beam first endpoint:
`nodeA = 1000*(i+1) + k + (j-1)*(y_length/beamSpacingY+1)`. -/
def beamANodeA (p : Params) (i j k : ℕ) : ℚ :=
  1000 * ((i : ℚ) + 1) + k + ((j : ℚ) - 1) * rawNy p

/-- Pass A beam second endpoint: `nodeB = nodeA + 1`. -/
def beamANodeB (p : Params) (i j k : ℕ) : ℚ := beamANodeA p i j k + 1

/-- Pass B beam identifier: `mID = 10000*(i+1) + 100*j + k`. -/
def beamBId (i j k : ℕ) : ℕ := 10000 * (i + 1) + 100 * j + k

/-- Pass B beam first endpoint (same formula as Pass A). -/
def beamBNodeA (p : Params) (i j k : ℕ) : ℚ :=
  1000 * ((i : ℚ) + 1) + k + ((j : ℚ) - 1) * rawNy p

/-- Pass B beam second endpoint: `nodeB = nodeA + (y_length/beamSpacingY+1)`. -/
def beamBNodeB (p : Params) (i j k : ℕ) : ℚ := beamBNodeA p i j k + rawNy p

/-- The `BEAMS` dictionary as the list of assignments of the two passes, in
iteration order (Pass A then Pass B); both `i` loops are
`range(1, ceil(numStories))`, i.e. `i = 1..numStories-1`. -/
def BEAMS (p : Params) : List (ℕ × Element) :=
  ((List.range' 1 (p.numStories - 1)).flatMap fun i =>
    (List.range' 1 (nx p)).flatMap fun j =>
      (List.range' 1 (kMaxA p)).map fun k =>
        (beamAId i j k, beamRow (beamANodeA p i j k) (beamANodeB p i j k)))
  ++
  ((List.range' 1 (p.numStories - 1)).flatMap fun i =>
    (List.range' 1 (jMaxB p)).flatMap fun j =>
      (List.range' 1 (ny p)).map fun k =>
        (beamBId i j k, beamRow (beamBNodeA p i j k) (beamBNodeB p i j k)))

/-- Number of bay lines in x: the column `j` loop
`range(1, ceil(x_length/baySizeX)+2)` runs over `j = 1..nbx`. -/
def nbx (p : Params) : ℕ := (Int.ceil (p.x_length / p.baySizeX) + 1).toNat

/-- Number of bay lines in y: the column `k` loop
`range(1, ceil(y_length/baySizeY)+2)` runs over `k = 1..nby`. -/
def nby (p : Params) : ℕ := (Int.ceil (p.y_length / p.baySizeY) + 1).toNat

/-- Column identifier: `mID = 100000*i + 1000*j + k`. -/
def colId (i j k : ℕ) : ℕ := 100000 * i + 1000 * j + k

/-- Column lower endpoint:
`nodeA = 1000*i + (1 + (k-1)*(baySizeY/beamSpacingY)) + (j-1)*(y_length/beamSpacingY+1)`. -/
def colNodeA (p : Params) (i j k : ℕ) : ℚ :=
  1000 * i + (1 + ((k : ℚ) - 1) * (p.baySizeY / p.beamSpacingY)) +
    ((j : ℚ) - 1) * rawNy p

/-- Column upper endpoint: `nodeB = nodeA + 1000`. -/
def colNodeB (p : Params) (i j k : ℕ) : ℚ := colNodeA p i j k + 1000

/-- The `COLUMNS` dictionary as the list of assignments, in iteration order;
the `i` loop is `range(1, ceil(numStories))`, i.e. `i = 1..numStories-1`. -/
def COLUMNS (p : Params) : List (ℕ × Element) :=
  (List.range' 1 (p.numStories - 1)).flatMap fun i =>
    (List.range' 1 (nbx p)).flatMap fun j =>
      (List.range' 1 (nby p)).map fun k =>
        (colId i j k, columnRow (colNodeA p i j k) (colNodeB p i j k))

/-- The node identifiers the grid produces on the ground level (`i = 1`). -/
def groundIdSet (p : Params) : Finset ℚ :=
  (Finset.Icc 1 (nx p) ×ˢ Finset.Icc 1 (ny p)).image fun t => nodeId p 1 t.1 t.2

/-- The x-coordinates of bay corners: `(j'-1)*baySizeX` for a bay line `j'`. -/
def bayCornerXs (p : Params) : Finset ℚ :=
  (Finset.Icc 1 (nbx p)).image fun j : ℕ => ((j : ℚ) - 1) * p.baySizeX

/-- The key list of the `BEAMS` dictionary, in insertion order. -/
def beamIdList (p : Params) : List ℕ := (BEAMS p).map Prod.fst

/-- The key list of the `COLUMNS` dictionary, in insertion order. -/
def colIdList (p : Params) : List ℕ := (COLUMNS p).map Prod.fst

/-- The number of distinct beam identifiers, i.e. `len(BEAMS)`. -/
def beamCount (p : Params) : ℕ := (beamIdList p).dedup.length

/-- The number of distinct column identifiers, i.e. `len(COLUMNS)`. -/
def colCount (p : Params) : ℕ := (colIdList p).dedup.length

/-- An invalid parameter set: negative story height, otherwise the notebook
values. -/
def invalidParams : Params := ⟨-18, 4, 120, 120, 30, 30, 30, 10⟩

/-- A valid parameter set overflowing the 1000-ids-per-level capacity:
`y_length = 100` with `beamSpacingY = 1/10` gives `ny = 1001`. -/
def pOverflow : Params := ⟨1, 2, 1, 100, 1, 1, 1, 1/10⟩

/-- A valid parameter set with a wide, shallow grid (`nx = 11`, `ny = 2`),
where the digit groupings of the two beam passes overlap. -/
def pWide : Params := ⟨1, 2, 10, 1, 1, 1, 1, 1⟩

/-- A valid parameter set where the x bay size is twice the x beam spacing,
so bay corners are a strict sub-grid of the node grid in x. -/
def pColBug : Params := ⟨18, 2, 120, 120, 60, 30, 30, 10⟩

/-- A valid parameter set where `baySizeY` is not an integer multiple of
`beamSpacingY` (30 vs 20), producing fractional column endpoints. -/
def pDangle : Params := ⟨1, 2, 30, 30, 30, 30, 30, 20⟩

/-- The per-level capacity invariant of the identifier scheme: the largest
in-level offset `(nx-1)*(y_length/beamSpacingY+1) + ny` stays below the
thousands-block size. -/
def Capacity (p : Params) : Prop :=
  ((nx p : ℚ) - 1) * rawNy p + (ny p : ℚ) < 1000

instance (p : Params) : Decidable (Capacity p) := by
  unfold Capacity; infer_instance

section Helpers

variable {p : Params}

lemma rawNy_pos (hp : p.Valid) : 0 < p.y_length / p.beamSpacingY :=
  div_pos hp.2.2.2.1 hp.2.2.2.2.2.2.2

lemma one_lt_rawNy (hp : p.Valid) : 1 < rawNy p := by
  have := rawNy_pos hp
  unfold rawNy
  linarith

lemma ceil_y_pos (hp : p.Valid) : 0 < Int.ceil (p.y_length / p.beamSpacingY) :=
  Int.ceil_pos.mpr (rawNy_pos hp)

lemma ceil_x_pos (hp : p.Valid) : 0 < Int.ceil (p.x_length / p.beamSpacingX) :=
  Int.ceil_pos.mpr (div_pos hp.2.2.1 hp.2.2.2.2.2.2.1)

lemma ny_cast (hp : p.Valid) :
    (ny p : ℚ) = (Int.ceil (p.y_length / p.beamSpacingY) : ℚ) + 1 := by
  have h := ceil_y_pos hp
  unfold ny
  have h2 : (((Int.ceil (p.y_length / p.beamSpacingY) + 1).toNat : ℤ)) =
      Int.ceil (p.y_length / p.beamSpacingY) + 1 := by omega
  exact_mod_cast h2

lemma nx_cast (hp : p.Valid) :
    (nx p : ℚ) = (Int.ceil (p.x_length / p.beamSpacingX) : ℚ) + 1 := by
  have h := ceil_x_pos hp
  unfold nx
  have h2 : (((Int.ceil (p.x_length / p.beamSpacingX) + 1).toNat : ℤ)) =
      Int.ceil (p.x_length / p.beamSpacingX) + 1 := by omega
  exact_mod_cast h2

lemma ny_cast_lt_rawNy_add_one (hp : p.Valid) : (ny p : ℚ) < rawNy p + 1 := by
  rw [ny_cast hp]
  have := Int.ceil_lt_add_one (p.y_length / p.beamSpacingY)
  unfold rawNy
  linarith

lemma kMaxA_succ (hp : p.Valid) : kMaxA p + 1 = ny p := by
  have h := ceil_y_pos hp
  unfold kMaxA ny
  omega

lemma jMaxB_succ (hp : p.Valid) : jMaxB p + 1 = nx p := by
  have h := ceil_x_pos hp
  unfold jMaxB nx
  omega

lemma two_le_ny (hp : p.Valid) : 2 ≤ ny p := by
  have h := ceil_y_pos hp
  unfold ny
  omega

lemma two_le_nx (hp : p.Valid) : 2 ≤ nx p := by
  have h := ceil_x_pos hp
  unfold nx
  omega

lemma cast_diff_le {j j' n : ℕ} (hj1 : 1 ≤ j) (hj2 : j ≤ n) (hj1' : 1 ≤ j')
    (hj2' : j' ≤ n) : |(j : ℚ) - j'| ≤ (n : ℚ) - 1 := by
  have h1 : (1 : ℚ) ≤ j := by exact_mod_cast hj1
  have h2 : (j : ℚ) ≤ n := by exact_mod_cast hj2
  have h3 : (1 : ℚ) ≤ j' := by exact_mod_cast hj1'
  have h4 : (j' : ℚ) ≤ n := by exact_mod_cast hj2'
  rw [abs_sub_le_iff]
  constructor <;> linarith

lemma one_le_cast_diff {i i' : ℕ} (h : i ≠ i') : (1 : ℚ) ≤ |(i : ℚ) - i'| := by
  rw [le_abs]
  rcases lt_or_gt_of_ne h with hlt | hgt
  · right
    have : (i : ℚ) + 1 ≤ i' := by exact_mod_cast hlt
    linarith
  · left
    have : (i' : ℚ) + 1 ≤ i := by exact_mod_cast hgt
    linarith

/-- Within the whole grid, the node-identifier formula is injective on the
iterated index triples, provided the per-level capacity invariant holds. -/
lemma nodeId_inj (hp : p.Valid) (hcap : Capacity p) {i j k i' j' k' : ℕ}
    (hi1 : 1 ≤ i) (hi2 : i ≤ p.numStories) (hj1 : 1 ≤ j) (hj2 : j ≤ nx p)
    (hk1 : 1 ≤ k) (hk2 : k ≤ ny p)
    (hi1' : 1 ≤ i') (hi2' : i' ≤ p.numStories) (hj1' : 1 ≤ j') (hj2' : j' ≤ nx p)
    (hk1' : 1 ≤ k') (hk2' : k' ≤ ny p)
    (heq : nodeId p i j k = nodeId p i' j' k') : i = i' ∧ j = j' ∧ k = k' := by
  have hr : 1 < rawNy p := one_lt_rawNy hp
  have hrpos : 0 < rawNy p := lt_trans one_pos hr
  have hnylt : (ny p : ℚ) < rawNy p + 1 := ny_cast_lt_rawNy_add_one hp
  unfold nodeId at heq
  have key : 1000 * ((i : ℚ) - i') = ((j' : ℚ) - j) * rawNy p + ((k' : ℚ) - k) := by
    linarith [heq]
  have habsj : |(j : ℚ) - j'| ≤ (nx p : ℚ) - 1 := cast_diff_le hj1 hj2 hj1' hj2'
  have habsk : |(k : ℚ) - k'| ≤ (ny p : ℚ) - 1 := cast_diff_le hk1 hk2 hk1' hk2'
  have hnx1 : (0 : ℚ) ≤ (nx p : ℚ) - 1 := by
    have : (1 : ℚ) ≤ (nx p : ℚ) := by exact_mod_cast le_trans hj1 hj2
    linarith
  have hrhs : |((j' : ℚ) - j) * rawNy p + ((k' : ℚ) - k)| ≤
      ((nx p : ℚ) - 1) * rawNy p + ((ny p : ℚ) - 1) := by
    calc |((j' : ℚ) - j) * rawNy p + ((k' : ℚ) - k)|
        ≤ |((j' : ℚ) - j) * rawNy p| + |(k' : ℚ) - k| := abs_add _ _
      _ = |(j' : ℚ) - j| * rawNy p + |(k' : ℚ) - k| := by
            rw [abs_mul, abs_of_pos hrpos]
      _ ≤ ((nx p : ℚ) - 1) * rawNy p + ((ny p : ℚ) - 1) := by
            have h1 : |(j' : ℚ) - j| ≤ (nx p : ℚ) - 1 := by
              rw [abs_sub_comm]; exact habsj
            have h2 : |(k' : ℚ) - k| ≤ (ny p : ℚ) - 1 := by
              rw [abs_sub_comm]; exact habsk
            have := mul_le_mul_of_nonneg_right h1 hrpos.le
            linarith
  have hii : i = i' := by
    by_contra hne
    have h1000 : (1000 : ℚ) ≤ |1000 * ((i : ℚ) - i')| := by
      rw [abs_mul]
      have := one_le_cast_diff hne
      have h : |(1000 : ℚ)| = 1000 := by norm_num
      rw [h]
      linarith
    rw [key] at h1000
    have hcap' : ((nx p : ℚ) - 1) * rawNy p + ((ny p : ℚ) - 1) < 999 := by
      unfold Capacity at hcap
      linarith
    linarith [le_trans h1000 hrhs]
  subst hii
  have key2 : ((j' : ℚ) - j) * rawNy p = (k : ℚ) - k' := by
    linarith [key]
  have hjj : j = j' := by
    by_contra hne
    have h1 : rawNy p ≤ |((j' : ℚ) - j) * rawNy p| := by
      rw [abs_mul, abs_of_pos hrpos]
      have := one_le_cast_diff (Ne.symm hne)
      nlinarith
    rw [key2] at h1
    have h2 : |(k : ℚ) - k'| ≤ (ny p : ℚ) - 1 := habsk
    linarith
  subst hjj
  have : (k : ℚ) = k' := by linarith [key2]
  have : k = k' := by exact_mod_cast this
  exact ⟨rfl, rfl, this⟩

lemma mem_NODES {i j k : ℕ} (hi1 : 1 ≤ i) (hi2 : i ≤ p.numStories)
    (hj1 : 1 ≤ j) (hj2 : j ≤ nx p) (hk1 : 1 ≤ k) (hk2 : k ≤ ny p) :
    (nodeId p i j k, nodeCoord p i j k) ∈ NODES p := by
  unfold NODES
  simp only [List.mem_flatMap, List.mem_map, List.mem_range'_1]
  exact ⟨i, ⟨hi1, by omega⟩, j, ⟨hj1, by omega⟩, k, ⟨hk1, by omega⟩, rfl⟩

lemma nodeId_mem_nodeIdSet {i j k : ℕ} (hi1 : 1 ≤ i) (hi2 : i ≤ p.numStories)
    (hj1 : 1 ≤ j) (hj2 : j ≤ nx p) (hk1 : 1 ≤ k) (hk2 : k ≤ ny p) :
    nodeId p i j k ∈ nodeIdSet p := by
  unfold nodeIdSet nodeTriples
  rw [Finset.mem_image]
  refine ⟨(i, j, k), ?_, rfl⟩
  simp only [Finset.mem_product, Finset.mem_Icc]
  exact ⟨⟨hi1, hi2⟩, ⟨hj1, hj2⟩, ⟨hk1, hk2⟩⟩

lemma mem_COLUMNS {i j k : ℕ} (hi1 : 1 ≤ i) (hi2 : i ≤ p.numStories - 1)
    (hj1 : 1 ≤ j) (hj2 : j ≤ nbx p) (hk1 : 1 ≤ k) (hk2 : k ≤ nby p) :
    (colId i j k, columnRow (colNodeA p i j k) (colNodeB p i j k)) ∈ COLUMNS p := by
  unfold COLUMNS
  simp only [List.mem_flatMap, List.mem_map, List.mem_range'_1]
  exact ⟨i, ⟨hi1, by omega⟩, j, ⟨hj1, by omega⟩, k, ⟨hk1, by omega⟩, rfl⟩

lemma length_flatMap_const {α β : Type} (l : List α) (f : α → List β) (c : ℕ)
    (h : ∀ a ∈ l, (f a).length = c) : (l.flatMap f).length = l.length * c := by
  induction l with
  | nil => simp
  | cons a t ih =>
      simp only [List.flatMap_cons, List.length_append, List.length_cons]
      rw [h a (List.mem_cons_self a t), ih fun b hb => h b (List.mem_cons_of_mem a hb)]
      ring

lemma length_NODES (p : Params) :
    (NODES p).length = p.numStories * (nx p * ny p) := by
  unfold NODES
  rw [length_flatMap_const _ _ (nx p * ny p), List.length_range']
  intro a _
  rw [length_flatMap_const _ _ (ny p), List.length_range']
  intro b _
  rw [List.length_map, List.length_range']

lemma length_BEAMS (p : Params) :
    (BEAMS p).length =
      (p.numStories - 1) * (nx p * kMaxA p) +
        (p.numStories - 1) * (jMaxB p * ny p) := by
  unfold BEAMS
  rw [List.length_append]
  congr 1
  · rw [length_flatMap_const _ _ (nx p * kMaxA p), List.length_range']
    intro a _
    rw [length_flatMap_const _ _ (kMaxA p), List.length_range']
    intro b _
    rw [List.length_map, List.length_range']
  · rw [length_flatMap_const _ _ (jMaxB p * ny p), List.length_range']
    intro a _
    rw [length_flatMap_const _ _ (ny p), List.length_range']
    intro b _
    rw [List.length_map, List.length_range']

lemma nodeId_lower (hp : p.Valid) {i j k : ℕ} (hj1 : 1 ≤ j) (hk1 : 1 ≤ k) :
    1000 * (i : ℚ) + 1 ≤ nodeId p i j k := by
  have hr : 0 < rawNy p := lt_trans one_pos (one_lt_rawNy hp)
  have hj : (1 : ℚ) ≤ j := by exact_mod_cast hj1
  have hk : (1 : ℚ) ≤ k := by exact_mod_cast hk1
  have : 0 ≤ ((j : ℚ) - 1) * rawNy p := mul_nonneg (by linarith) hr.le
  unfold nodeId
  linarith

lemma nodeId_upper (hp : p.Valid) (hcap : Capacity p) {i j k : ℕ}
    (hj2 : j ≤ nx p) (hk2 : k ≤ ny p) :
    nodeId p i j k < 1000 * (i : ℚ) + 1000 := by
  have hr : 0 < rawNy p := lt_trans one_pos (one_lt_rawNy hp)
  have hj : (j : ℚ) ≤ nx p := by exact_mod_cast hj2
  have hk : (k : ℚ) ≤ ny p := by exact_mod_cast hk2
  have hmul : ((j : ℚ) - 1) * rawNy p ≤ ((nx p : ℚ) - 1) * rawNy p :=
    mul_le_mul_of_nonneg_right (by linarith) hr.le
  unfold Capacity at hcap
  unfold nodeId
  linarith

lemma length_COLUMNS (p : Params) :
    (COLUMNS p).length = (p.numStories - 1) * (nbx p * nby p) := by
  unfold COLUMNS
  rw [length_flatMap_const _ _ (nbx p * nby p), List.length_range']
  intro a _
  rw [length_flatMap_const _ _ (nby p), List.length_range']
  intro b _
  rw [List.length_map, List.length_range']

lemma mem_BEAMS_A {i j k : ℕ} (hi1 : 1 ≤ i) (hi2 : i ≤ p.numStories - 1)
    (hj1 : 1 ≤ j) (hj2 : j ≤ nx p) (hk1 : 1 ≤ k) (hk2 : k ≤ kMaxA p) :
    (beamAId i j k, beamRow (beamANodeA p i j k) (beamANodeB p i j k)) ∈ BEAMS p := by
  unfold BEAMS
  rw [List.mem_append]
  left
  simp only [List.mem_flatMap, List.mem_map, List.mem_range'_1]
  exact ⟨i, ⟨hi1, by omega⟩, j, ⟨hj1, by omega⟩, k, ⟨hk1, by omega⟩, rfl⟩

lemma mem_BEAMS_B {i j k : ℕ} (hi1 : 1 ≤ i) (hi2 : i ≤ p.numStories - 1)
    (hj1 : 1 ≤ j) (hj2 : j ≤ jMaxB p) (hk1 : 1 ≤ k) (hk2 : k ≤ ny p) :
    (beamBId i j k, beamRow (beamBNodeA p i j k) (beamBNodeB p i j k)) ∈ BEAMS p := by
  unfold BEAMS
  rw [List.mem_append]
  right
  simp only [List.mem_flatMap, List.mem_map, List.mem_range'_1]
  exact ⟨i, ⟨hi1, by omega⟩, j, ⟨hj1, by omega⟩, k, ⟨hk1, by omega⟩, rfl⟩

lemma nx_example : nx exampleParams = 5 := by
  unfold nx exampleParams
  norm_num
  rfl

lemma ny_example : ny exampleParams = 13 := by
  unfold ny exampleParams
  norm_num
  rfl

lemma rawNy_example : rawNy exampleParams = 13 := by
  unfold rawNy exampleParams
  norm_num

lemma kMaxA_example : kMaxA exampleParams = 12 := by
  unfold kMaxA exampleParams
  norm_num
  rfl

lemma jMaxB_example : jMaxB exampleParams = 4 := by
  unfold jMaxB exampleParams
  norm_num
  rfl

lemma nbx_example : nbx exampleParams = 5 := by
  unfold nbx exampleParams
  norm_num
  rfl

lemma nby_example : nby exampleParams = 5 := by
  unfold nby exampleParams
  norm_num
  rfl

lemma nx_invalid : nx invalidParams = 5 := by
  unfold nx invalidParams
  norm_num
  rfl

lemma ny_invalid : ny invalidParams = 13 := by
  unfold ny invalidParams
  norm_num
  rfl

lemma nx_pOverflow : nx pOverflow = 2 := by
  unfold nx pOverflow
  norm_num
  rfl

lemma ny_pOverflow : ny pOverflow = 1001 := by
  unfold ny pOverflow
  norm_num
  rfl

lemma rawNy_pOverflow : rawNy pOverflow = 1001 := by
  unfold rawNy pOverflow
  norm_num

lemma nx_pColBug : nx pColBug = 5 := by
  unfold nx pColBug
  norm_num
  rfl

lemma ny_pColBug : ny pColBug = 13 := by
  unfold ny pColBug
  norm_num
  rfl

lemma nbx_pColBug : nbx pColBug = 3 := by
  unfold nbx pColBug
  norm_num
  rfl

lemma nby_pColBug : nby pColBug = 5 := by
  unfold nby pColBug
  norm_num
  rfl

lemma ceil_pDangle : Int.ceil ((30 : ℚ) / 20) = 2 := by
  rw [Int.ceil_eq_iff]
  constructor <;> norm_num

lemma nx_pDangle : nx pDangle = 2 := by
  unfold nx pDangle
  norm_num
  rfl

lemma ny_pDangle : ny pDangle = 3 := by
  show (Int.ceil ((30 : ℚ) / 20) + 1).toNat = 3
  rw [ceil_pDangle]
  rfl

lemma rawNy_pDangle : rawNy pDangle = 5 / 2 := by
  unfold rawNy pDangle
  norm_num

lemma nbx_pDangle : nbx pDangle = 2 := by
  unfold nbx pDangle
  norm_num
  rfl

lemma nby_pDangle : nby pDangle = 2 := by
  unfold nby pDangle
  norm_num
  rfl

lemma nx_pWide : nx pWide = 11 := by
  unfold nx pWide
  norm_num
  rfl

lemma ny_pWide : ny pWide = 2 := by
  unfold ny pWide
  norm_num
  rfl

lemma kMaxA_pWide : kMaxA pWide = 1 := by
  unfold kMaxA pWide
  norm_num

lemma jMaxB_pWide : jMaxB pWide = 10 := by
  unfold jMaxB pWide
  norm_num
  rfl

lemma beamIdList_eq (p : Params) :
    beamIdList p =
      ((List.range' 1 (p.numStories - 1)).flatMap fun i =>
        (List.range' 1 (nx p)).flatMap fun j =>
          (List.range' 1 (kMaxA p)).map fun k => beamAId i j k) ++
      ((List.range' 1 (p.numStories - 1)).flatMap fun i =>
        (List.range' 1 (jMaxB p)).flatMap fun j =>
          (List.range' 1 (ny p)).map fun k => beamBId i j k) := by
  unfold beamIdList BEAMS
  simp only [List.map_append, List.map_flatMap, List.map_map]
  rfl

lemma colIdList_eq (p : Params) :
    colIdList p =
      (List.range' 1 (p.numStories - 1)).flatMap fun i =>
        (List.range' 1 (nbx p)).flatMap fun j =>
          (List.range' 1 (nby p)).map fun k => colId i j k := by
  unfold colIdList COLUMNS
  simp only [List.map_flatMap, List.map_map]
  rfl

lemma beamIdList_example :
    beamIdList exampleParams =
      ((List.range' 1 3).flatMap fun i =>
        (List.range' 1 5).flatMap fun j =>
          (List.range' 1 12).map fun k => beamAId i j k) ++
      ((List.range' 1 3).flatMap fun i =>
        (List.range' 1 4).flatMap fun j =>
          (List.range' 1 13).map fun k => beamBId i j k) := by
  rw [beamIdList_eq, nx_example, ny_example, kMaxA_example, jMaxB_example]
  rfl

lemma colIdList_example :
    colIdList exampleParams =
      (List.range' 1 3).flatMap fun i =>
        (List.range' 1 5).flatMap fun j =>
          (List.range' 1 5).map fun k => colId i j k := by
  rw [colIdList_eq, nbx_example, nby_example]
  rfl

end Helpers

/-- C1: for every valid parameter set and every level `i = 1..numStories`,
x-line `j = 1..nx`, y-line `k = 1..ny`, the node generator produces a node
whose identifier is `1000*i + (j-1)*(y_length/beamSpacingY + 1) + k` — with the
raw (possibly non-integer) ratio in the offset term, not the ceiling-rounded
`ny` — and whose coordinates are
`((j-1)*beamSpacingX, (k-1)*beamSpacingY, (i-1)*storyHeight)`. -/
theorem C1_node_formula (p : Params) (hp : p.Valid) (i j k : ℕ)
    (hi1 : 1 ≤ i) (hi2 : i ≤ p.numStories) (hj1 : 1 ≤ j) (hj2 : j ≤ nx p)
    (hk1 : 1 ≤ k) (hk2 : k ≤ ny p) :
    (1000 * (i : ℚ) + ((j : ℚ) - 1) * (p.y_length / p.beamSpacingY + 1) + k,
      (((j : ℚ) - 1) * p.beamSpacingX, ((k : ℚ) - 1) * p.beamSpacingY,
        ((i : ℚ) - 1) * p.storyHeight)) ∈ NODES p := by
  have h := mem_NODES (p := p) hi1 hi2 hj1 hj2 hk1 hk2
  simpa [nodeId, nodeCoord, rawNy] using h

/-- Witness for C1 at the notebook parameters: node 2001 at (0, 0, 18). -/
theorem C1_node_formula_witness :
    exampleParams.Valid ∧ ((2001 : ℚ), ((0 : ℚ), (0 : ℚ), (18 : ℚ))) ∈ NODES exampleParams := by
  refine ⟨by decide, ?_⟩
  have h := C1_node_formula exampleParams (by decide) 2 1 1 (by norm_num) (by decide)
    (by norm_num) (by simp [nx_example]) (by norm_num) (by simp [ny_example])
  norm_num [exampleParams] at h
  exact h

/-- C7: every beam connects two nodes whose grid triples (level, x-line,
y-line) differ in exactly one index by exactly one step — Pass A endpoints are
the nodes addressed by `(i+1, j, k)` and `(i+1, j, k+1)`, Pass B endpoints by
`(i+1, j, k)` and `(i+1, j+1, k)`, with the stepped index staying inside the
grid bounds — and both endpoints of a beam lie on the same level, hence share
their z-coordinate: no beam is diagonal and none spans stories. -/
theorem C7_beam_step (p : Params) (hp : p.Valid) :
    (∀ i j k : ℕ, 1 ≤ i → i ≤ p.numStories - 1 → 1 ≤ j → j ≤ nx p → 1 ≤ k →
      k ≤ kMaxA p →
      beamANodeA p i j k = nodeId p (i + 1) j k ∧
        beamANodeB p i j k = nodeId p (i + 1) j (k + 1) ∧ k + 1 ≤ ny p ∧
        (nodeCoord p (i + 1) j k).2.2 = (nodeCoord p (i + 1) j (k + 1)).2.2) ∧
    (∀ i j k : ℕ, 1 ≤ i → i ≤ p.numStories - 1 → 1 ≤ j → j ≤ jMaxB p → 1 ≤ k →
      k ≤ ny p →
      beamBNodeA p i j k = nodeId p (i + 1) j k ∧
        beamBNodeB p i j k = nodeId p (i + 1) (j + 1) k ∧ j + 1 ≤ nx p ∧
        (nodeCoord p (i + 1) j k).2.2 = (nodeCoord p (i + 1) (j + 1) k).2.2) := by
  constructor
  · intro i j k _ _ _ _ _ hk2
    refine ⟨?_, ?_, ?_, rfl⟩
    · unfold beamANodeA nodeId
      push_cast
      ring
    · unfold beamANodeB beamANodeA nodeId
      push_cast
      ring
    · have := kMaxA_succ hp
      omega
  · intro i j k _ _ _ hj2 _ _
    refine ⟨?_, ?_, ?_, rfl⟩
    · unfold beamBNodeA nodeId
      push_cast
      ring
    · unfold beamBNodeB beamBNodeA nodeId
      push_cast
      ring
    · have := jMaxB_succ hp
      omega

/-- Witness for C7 at the notebook parameters: the first Pass A beam runs from
node 2001 to node 2002, one y step apart on the same level. -/
theorem C7_beam_step_witness :
    exampleParams.Valid ∧
      beamANodeA exampleParams 1 1 1 = nodeId exampleParams 2 1 1 ∧
      beamANodeB exampleParams 1 1 1 = nodeId exampleParams 2 1 2 := by
  have h := (C7_beam_step exampleParams (by decide)).1 1 1 1 (by norm_num) (by decide)
    (by norm_num) (by simp [nx_example]) (by norm_num) (by simp [kMaxA_example])
  exact ⟨by decide, h.1, h.2.1⟩

/-- C9 (amended): the generator performs no parameter validation — whenever the
two beam-spacing divisors are nonzero (a zero spacing is the only input on
which the source raises, by zero division), the node generator totally returns
its mapping with exactly `numStories * nx * ny` assignments, with no side
effects and no failure, even when parameters are non-positive. -/
theorem C9_no_validation (p : Params) (hx : p.beamSpacingX ≠ 0)
    (hy : p.beamSpacingY ≠ 0) :
    (NODES p).length = p.numStories * (nx p * ny p) :=
  length_NODES p

/-- Witness for C9 at the invalid parameter set (storyHeight = -18): the
generator still returns all 260 assignments. -/
theorem C9_no_validation_witness :
    invalidParams.beamSpacingX ≠ 0 ∧ invalidParams.beamSpacingY ≠ 0 ∧
      (NODES invalidParams).length = 260 := by
  refine ⟨by norm_num [invalidParams], by norm_num [invalidParams], ?_⟩
  rw [C9_no_validation invalidParams (by norm_num [invalidParams])
    (by norm_num [invalidParams]), nx_invalid, ny_invalid]
  rfl

/-- C9 counterexample: on an invalid parameter set (negative story height) the
node generator does not fail fast before producing output — it produces its
full, non-empty node mapping. -/
theorem C9_counterexample :
    ¬ invalidParams.Valid ∧ NODES invalidParams ≠ [] ∧
      (NODES invalidParams).length = 260 := by
  have hlen : (NODES invalidParams).length = 260 := by
    rw [length_NODES, nx_invalid, ny_invalid]
    rfl
  refine ⟨?_, ?_, hlen⟩
  · intro h
    have h1 := h.1
    norm_num [invalidParams] at h1
  · intro h
    rw [h] at hlen
    simp at hlen

/-- C4 (amended): provided `nx ≤ 9` and `ny ≤ 100`, no element identifier of
Pass A (transverse beams, `10000*(i+1) + 1000*j + k`) can equal one of Pass B
(longitudinal beams, `10000*(i+1) + 100*j + k`), and within each pass the
identifier determines the loop indices — so every beam identifier is unique
within the beam category. -/
theorem C4_beam_id_ranges (p : Params) (hp : p.Valid) (h9 : nx p ≤ 9)
    (h100 : ny p ≤ 100) :
    (∀ i j k i' j' k' : ℕ, 1 ≤ i → i ≤ p.numStories - 1 → 1 ≤ j → j ≤ nx p →
      1 ≤ k → k ≤ kMaxA p → 1 ≤ i' → i' ≤ p.numStories - 1 → 1 ≤ j' →
      j' ≤ jMaxB p → 1 ≤ k' → k' ≤ ny p → beamAId i j k ≠ beamBId i' j' k') ∧
    (∀ i j k i' j' k' : ℕ, 1 ≤ j → j ≤ nx p → 1 ≤ k → k ≤ kMaxA p → 1 ≤ j' →
      j' ≤ nx p → 1 ≤ k' → k' ≤ kMaxA p →
      beamAId i j k = beamAId i' j' k' → i = i' ∧ j = j' ∧ k = k') ∧
    (∀ i j k i' j' k' : ℕ, 1 ≤ j → j ≤ jMaxB p → 1 ≤ k → k ≤ ny p → 1 ≤ j' →
      j' ≤ jMaxB p → 1 ≤ k' → k' ≤ ny p →
      beamBId i j k = beamBId i' j' k' → i = i' ∧ j = j' ∧ k = k') := by
  have hA := kMaxA_succ hp
  have hBx := jMaxB_succ hp
  refine ⟨?_, ?_, ?_⟩
  · intro i j k i' j' k'
    intros
    unfold beamAId beamBId at *
    omega
  · intro i j k i' j' k'
    intros
    unfold beamAId at *
    omega
  · intro i j k i' j' k'
    intros
    unfold beamBId at *
    omega

/-- Witness for C4 at the notebook parameters: the first identifiers of the two
passes differ. -/
theorem C4_beam_id_ranges_witness :
    exampleParams.Valid ∧ nx exampleParams ≤ 9 ∧ ny exampleParams ≤ 100 ∧
      beamAId 1 1 1 ≠ beamBId 1 1 1 := by
  refine ⟨by decide, by simp [nx_example], by simp [ny_example], ?_⟩
  exact (C4_beam_id_ranges exampleParams (by decide) (by simp [nx_example])
    (by simp [ny_example])).1 1 1 1 1 1 1 (by norm_num) (by decide) (by norm_num)
    (by simp [nx_example]) (by norm_num) (by simp [kMaxA_example]) (by norm_num)
    (by decide) (by norm_num) (by simp [jMaxB_example]) (by norm_num)
    (by simp [ny_example])

/-- C4 counterexample: on the valid wide grid `pWide` (`nx = 11`), Pass A
element (1,1,1) and Pass B element (1,10,1) are both generated and carry the
same identifier 21001 — the two passes' identifier ranges are not distinct. -/
theorem C4_counterexample :
    pWide.Valid ∧
      (beamAId 1 1 1,
        beamRow (beamANodeA pWide 1 1 1) (beamANodeB pWide 1 1 1)) ∈ BEAMS pWide ∧
      (beamBId 1 10 1,
        beamRow (beamBNodeA pWide 1 10 1) (beamBNodeB pWide 1 10 1)) ∈ BEAMS pWide ∧
      beamAId 1 1 1 = beamBId 1 10 1 := by
  refine ⟨by decide, ?_, ?_, by decide⟩
  · exact mem_BEAMS_A (by norm_num) (by decide) (by norm_num)
      (by simp [nx_pWide]) (by norm_num) (by simp [kMaxA_pWide])
  · exact mem_BEAMS_B (by norm_num) (by decide) (by norm_num)
      (by simp [jMaxB_pWide]) (by norm_num) (by simp [ny_pWide])

/-- C10: whenever all generated element identifiers within a category are
pairwise distinct, the beam table holds exactly
`(S-1) * (nx*(ny-1) + (nx-1)*ny)` elements and the column table exactly
`(S-1) * (ceil(Lx/baySizeX)+1) * (ceil(Ly/baySizeY)+1)` elements. -/
theorem C10_element_counts (p : Params) (hp : p.Valid)
    (hB : (beamIdList p).Nodup) (hC : (colIdList p).Nodup) :
    beamCount p = (p.numStories - 1) * (nx p * (ny p - 1) + (nx p - 1) * ny p) ∧
      colCount p = (p.numStories - 1) * (nbx p * nby p) := by
  have hkA : kMaxA p = ny p - 1 := by
    have := kMaxA_succ hp
    omega
  have hjB : jMaxB p = nx p - 1 := by
    have := jMaxB_succ hp
    omega
  constructor
  · rw [beamCount, List.dedup_eq_self.mpr hB, beamIdList, List.length_map,
      length_BEAMS, hkA, hjB]
    ring
  · rw [colCount, List.dedup_eq_self.mpr hC, colIdList, List.length_map,
      length_COLUMNS]

set_option maxRecDepth 4000 in
/-- Witness for C10 at the notebook parameters: 336 beams and 75 columns. -/
theorem C10_element_counts_witness :
    exampleParams.Valid ∧ (beamIdList exampleParams).Nodup ∧
      (colIdList exampleParams).Nodup ∧ beamCount exampleParams = 336 ∧
      colCount exampleParams = 75 := by
  have hB : (beamIdList exampleParams).Nodup := by
    rw [beamIdList_example]
    decide
  have hC : (colIdList exampleParams).Nodup := by
    rw [colIdList_example]
    decide
  have h := C10_element_counts exampleParams (by decide) hB hC
  refine ⟨by decide, hB, hC, ?_, ?_⟩
  · rw [h.1, nx_example, ny_example]
    rfl
  · rw [h.2, nbx_example, nby_example]
    rfl

/-- C5 (amended): under the per-level capacity invariant the number of distinct
node identifiers equals `numStories * nx * ny` — the identifier formula is
injective over the iterated (i, j, k) triples, so no entry overwrites
another. -/
theorem C5_node_count (p : Params) (hp : p.Valid) (hcap : Capacity p) :
    nodeCount p = p.numStories * (nx p * ny p) := by
  unfold nodeCount nodeIdSet
  rw [Finset.card_image_of_injOn]
  · unfold nodeTriples
    rw [Finset.card_product, Finset.card_product, Nat.card_Icc, Nat.card_Icc,
      Nat.card_Icc]
    simp
  · rintro ⟨i, j, k⟩ hmem ⟨i', j', k'⟩ hmem' heq
    simp only [Finset.mem_coe, nodeTriples, Finset.mem_product, Finset.mem_Icc]
      at hmem hmem'
    obtain ⟨⟨hi1, hi2⟩, ⟨hj1, hj2⟩, hk1, hk2⟩ := hmem
    obtain ⟨⟨hi1', hi2'⟩, ⟨hj1', hj2'⟩, hk1', hk2'⟩ := hmem'
    obtain ⟨h1, h2, h3⟩ := nodeId_inj hp hcap hi1 hi2 hj1 hj2 hk1 hk2 hi1' hi2'
      hj1' hj2' hk1' hk2' heq
    simp [h1, h2, h3]

/-- Witness for C5 at the notebook parameters: 4 * 5 * 13 = 260 nodes. -/
theorem C5_node_count_witness :
    exampleParams.Valid ∧ Capacity exampleParams ∧ nodeCount exampleParams = 260 := by
  have hcap : Capacity exampleParams := by
    unfold Capacity
    rw [nx_example, ny_example, rawNy_example]
    norm_num
  refine ⟨by decide, hcap, ?_⟩
  rw [C5_node_count exampleParams (by decide) hcap, nx_example, ny_example]
  rfl

lemma pOverflow_valid : pOverflow.Valid := by
  unfold Params.Valid pOverflow
  norm_num

/-- C5 counterexample: on the valid parameter set `pOverflow` (`ny = 1001`) the
identifier formula collides across levels, so the node count falls short of
`numStories * nx * ny`. -/
theorem C5_counterexample :
    pOverflow.Valid ∧
      nodeCount pOverflow ≠ pOverflow.numStories * (nx pOverflow * ny pOverflow) := by
  refine ⟨pOverflow_valid, ?_⟩
  have hid : nodeId pOverflow 1 2 1 = nodeId pOverflow 2 1 2 := by
    unfold nodeId
    rw [rawNy_pOverflow]
    norm_num
  have hmem1 : ((1, 2, 1) : ℕ × ℕ × ℕ) ∈ nodeTriples pOverflow := by
    simp only [nodeTriples, Finset.mem_product, Finset.mem_Icc, nx_pOverflow,
      ny_pOverflow]
    decide
  have hmem2 : ((2, 1, 2) : ℕ × ℕ × ℕ) ∈ nodeTriples pOverflow := by
    simp only [nodeTriples, Finset.mem_product, Finset.mem_Icc, nx_pOverflow,
      ny_pOverflow]
    decide
  have hsub : nodeIdSet pOverflow ⊆
      ((nodeTriples pOverflow).erase (1, 2, 1)).image
        fun t => nodeId pOverflow t.1 t.2.1 t.2.2 := by
    intro x hx
    rw [nodeIdSet, Finset.mem_image] at hx
    rw [Finset.mem_image]
    obtain ⟨t, ht, rfl⟩ := hx
    by_cases hteq : t = (1, 2, 1)
    · refine ⟨(2, 1, 2), Finset.mem_erase.mpr ⟨by decide, hmem2⟩, ?_⟩
      rw [hteq]
      exact hid.symm
    · exact ⟨t, Finset.mem_erase.mpr ⟨hteq, ht⟩, rfl⟩
  have hcardT : (nodeTriples pOverflow).card = 4004 := by
    unfold nodeTriples
    rw [Finset.card_product, Finset.card_product, Nat.card_Icc, Nat.card_Icc,
      Nat.card_Icc, nx_pOverflow, ny_pOverflow]
    decide
  have hle : nodeCount pOverflow ≤ 4003 := by
    calc nodeCount pOverflow
        ≤ (((nodeTriples pOverflow).erase (1, 2, 1)).image
            fun t => nodeId pOverflow t.1 t.2.1 t.2.2).card :=
          Finset.card_le_card hsub
      _ ≤ ((nodeTriples pOverflow).erase (1, 2, 1)).card := Finset.card_image_le
      _ = 4003 := by rw [Finset.card_erase_of_mem hmem1, hcardT]
  intro hcontra
  rw [hcontra, nx_pOverflow, ny_pOverflow] at hle
  have hS : pOverflow.numStories = 2 := rfl
  rw [hS] at hle
  omega

/-- C6 (amended): under the per-level capacity invariant node identifiers are
unique across the whole building, the identifier of every node on level i lies
in the half-open range [1000*i, 1000*i + 1000), and the level is recoverable as
floor(id/1000), which lies in [1, numStories]. -/
theorem C6_id_recovery (p : Params) (hp : p.Valid) (hcap : Capacity p) :
    ∀ i j k : ℕ, 1 ≤ i → i ≤ p.numStories → 1 ≤ j → j ≤ nx p → 1 ≤ k → k ≤ ny p →
      (1000 * (i : ℚ) ≤ nodeId p i j k ∧
        nodeId p i j k < 1000 * (i : ℚ) + 1000) ∧
      (Int.floor (nodeId p i j k / 1000) = (i : ℤ) ∧ 1 ≤ i ∧ i ≤ p.numStories) ∧
      (∀ i' j' k' : ℕ, 1 ≤ i' → i' ≤ p.numStories → 1 ≤ j' → j' ≤ nx p →
        1 ≤ k' → k' ≤ ny p → nodeId p i j k = nodeId p i' j' k' →
        i = i' ∧ j = j' ∧ k = k') := by
  intro i j k hi1 hi2 hj1 hj2 hk1 hk2
  have hlow := nodeId_lower hp (p := p) (i := i) hj1 hk1
  have hup := nodeId_upper hp hcap (p := p) (i := i) hj2 hk2
  refine ⟨⟨by linarith, hup⟩, ⟨?_, hi1, hi2⟩, ?_⟩
  · rw [Int.floor_eq_iff]
    constructor
    · push_cast
      rw [le_div_iff (by norm_num : (0 : ℚ) < 1000)]
      linarith
    · push_cast
      rw [div_lt_iff (by norm_num : (0 : ℚ) < 1000)]
      linarith
  · intro i' j' k' hi1' hi2' hj1' hj2' hk1' hk2' heq
    exact nodeId_inj hp hcap hi1 hi2 hj1 hj2 hk1 hk2 hi1' hi2' hj1' hj2' hk1'
      hk2' heq

/-- Witness for C6 at the notebook parameters: the level of node 2001 is
recovered as floor(2001/1000) = 2. -/
theorem C6_id_recovery_witness :
    exampleParams.Valid ∧ Capacity exampleParams ∧
      Int.floor (nodeId exampleParams 2 1 1 / 1000) = (2 : ℤ) := by
  have hcap : Capacity exampleParams := by
    unfold Capacity
    rw [nx_example, ny_example, rawNy_example]
    norm_num
  refine ⟨by decide, hcap, ?_⟩
  exact ((C6_id_recovery exampleParams (by decide) hcap 2 1 1 (by norm_num)
    (by decide) (by norm_num) (by simp [nx_example]) (by norm_num)
    (by simp [ny_example])).2.1).1

/-- C6 counterexample: on the valid parameter set `pOverflow` the distinct
triples (1,2,1) and (2,1,2) receive the same identifier 2002, and that level-1
identifier escapes the range [1000, 2000): uniqueness, range grouping and level
recovery all fail. -/
theorem C6_counterexample :
    pOverflow.Valid ∧ 2 ≤ pOverflow.numStories ∧ 2 ≤ nx pOverflow ∧
      2 ≤ ny pOverflow ∧ nodeId pOverflow 1 2 1 = nodeId pOverflow 2 1 2 ∧
      ¬ nodeId pOverflow 1 2 1 < 1000 * ((1 : ℕ) : ℚ) + 1000 := by
  have hid : nodeId pOverflow 1 2 1 = 2002 := by
    unfold nodeId
    rw [rawNy_pOverflow]
    norm_num
  have hid2 : nodeId pOverflow 2 1 2 = 2002 := by
    unfold nodeId
    rw [rawNy_pOverflow]
    norm_num
  refine ⟨pOverflow_valid, by decide, by simp [nx_pOverflow],
    by simp [ny_pOverflow], by rw [hid, hid2], ?_⟩
  rw [hid]
  norm_num

/-- C3 (amended): ground-level nodes participate in no beam — under the
capacity invariant every endpoint of every generated beam is strictly larger
than every ground-level (level 1) node identifier, hence never equal to one.
Columns, by contrast, do take ground-level nodes as their lower endpoints (see
the counterexample). -/
theorem C3_ground_nodes (p : Params) (hp : p.Valid) (hcap : Capacity p) :
    ∀ e ∈ BEAMS p, ∀ g ∈ groundIdSet p, e.2.nodeA ≠ g ∧ e.2.nodeB ≠ g := by
  intro e he g hg
  obtain ⟨⟨j', k'⟩, hmem, rfl⟩ := Finset.mem_image.mp hg
  simp only [Finset.mem_product, Finset.mem_Icc] at hmem
  have hg2 : nodeId p 1 j' k' < 2000 := by
    have h := nodeId_upper hp hcap (p := p) (i := 1) hmem.1.2 hmem.2.2
    push_cast at h
    linarith
  have hr : 0 < rawNy p := lt_trans one_pos (one_lt_rawNy hp)
  unfold BEAMS at he
  rw [List.mem_append] at he
  rcases he with he | he
  · simp only [List.mem_flatMap, List.mem_map, List.mem_range'_1] at he
    obtain ⟨i, hi, j, hj, k, hk, rfl⟩ := he
    have hA : beamANodeA p i j k = nodeId p (i + 1) j k := by
      unfold beamANodeA nodeId
      push_cast
      ring
    have hlow := nodeId_lower hp (p := p) (i := i + 1) (j := j) (k := k) hj.1 hk.1
    have hi1 : (1 : ℚ) ≤ i := by exact_mod_cast hi.1
    have hgt : nodeId p 1 j' k' < beamANodeA p i j k := by
      rw [hA]
      push_cast at hlow
      linarith
    constructor
    · exact (ne_of_gt hgt)
    · show beamANodeB p i j k ≠ _
      unfold beamANodeB
      have : nodeId p 1 j' k' < beamANodeA p i j k + 1 := by linarith
      exact (ne_of_gt this)
  · simp only [List.mem_flatMap, List.mem_map, List.mem_range'_1] at he
    obtain ⟨i, hi, j, hj, k, hk, rfl⟩ := he
    have hA : beamBNodeA p i j k = nodeId p (i + 1) j k := by
      unfold beamBNodeA nodeId
      push_cast
      ring
    have hlow := nodeId_lower hp (p := p) (i := i + 1) (j := j) (k := k) hj.1 hk.1
    have hi1 : (1 : ℚ) ≤ i := by exact_mod_cast hi.1
    have hgt : nodeId p 1 j' k' < beamBNodeA p i j k := by
      rw [hA]
      push_cast at hlow
      linarith
    constructor
    · exact (ne_of_gt hgt)
    · show beamBNodeB p i j k ≠ _
      unfold beamBNodeB
      have : nodeId p 1 j' k' < beamBNodeA p i j k + rawNy p := by linarith
      exact (ne_of_gt this)

/-- Witness for C3 at the notebook parameters: the first Pass A beam's lower
endpoint differs from the ground node 1001. -/
theorem C3_ground_nodes_witness :
    exampleParams.Valid ∧ Capacity exampleParams ∧
      beamANodeA exampleParams 1 1 1 ≠ (1001 : ℚ) := by
  have hcap : Capacity exampleParams := by
    unfold Capacity
    rw [nx_example, ny_example, rawNy_example]
    norm_num
  refine ⟨by decide, hcap, ?_⟩
  have hmem : (beamAId 1 1 1, beamRow (beamANodeA exampleParams 1 1 1)
      (beamANodeB exampleParams 1 1 1)) ∈ BEAMS exampleParams :=
    mem_BEAMS_A (by norm_num) (by decide) (by norm_num) (by simp [nx_example])
      (by norm_num) (by simp [kMaxA_example])
  have hg : (1001 : ℚ) ∈ groundIdSet exampleParams := by
    rw [groundIdSet, Finset.mem_image]
    refine ⟨(1, 1), ?_, ?_⟩
    · simp [nx_example, ny_example]
    · unfold nodeId
      rw [rawNy_example]
      norm_num
  exact (C3_ground_nodes exampleParams (by decide) hcap _ hmem _ hg).1

/-- C3 counterexample: with the notebook parameters the very first column takes
the ground-level node identifier 1001 as its lower endpoint — ground-level
nodes do participate in elements. -/
theorem C3_counterexample :
    exampleParams.Valid ∧
      (colId 1 1 1, columnRow (colNodeA exampleParams 1 1 1)
        (colNodeB exampleParams 1 1 1)) ∈ COLUMNS exampleParams ∧
      colNodeA exampleParams 1 1 1 = 1001 ∧
      (1001 : ℚ) ∈ groundIdSet exampleParams := by
  refine ⟨by decide, ?_, ?_, ?_⟩
  · exact mem_COLUMNS (by norm_num) (by decide) (by norm_num)
      (by simp [nbx_example]) (by norm_num) (by simp [nby_example])
  · unfold colNodeA
    rw [rawNy_example]
    norm_num [exampleParams]
  · rw [groundIdSet, Finset.mem_image]
    refine ⟨(1, 1), ?_, ?_⟩
    · simp [nx_example, ny_example]
    · unfold nodeId
      rw [rawNy_example]
      norm_num

/-- C2: evaluation at the failing input `pColBug` (baySizeX = 60,
beamSpacingX = 30): the column generator emits column (1,2,1) whose lower
endpoint is node 1014 = nodeId 1 2 1, a node generated at x = 30 — which is
not one of the bay-corner x-coordinates {0, 60, 120} — because the code uses
the bay index j directly as a fine-grid x-line index. -/
theorem C2_column_bay_corner_bug :
    pColBug.Valid ∧
      (colId 1 2 1, columnRow (colNodeA pColBug 1 2 1) (colNodeB pColBug 1 2 1))
        ∈ COLUMNS pColBug ∧
      colNodeA pColBug 1 2 1 = nodeId pColBug 1 2 1 ∧
      (nodeId pColBug 1 2 1, nodeCoord pColBug 1 2 1) ∈ NODES pColBug ∧
      (nodeCoord pColBug 1 2 1).1 = 30 ∧
      (30 : ℚ) ∉ bayCornerXs pColBug := by
  refine ⟨by decide, ?_, ?_, ?_, ?_, ?_⟩
  · exact mem_COLUMNS (by norm_num) (by decide) (by norm_num)
      (by simp [nbx_pColBug]) (by norm_num) (by simp [nby_pColBug])
  · unfold colNodeA nodeId
    norm_num [pColBug, rawNy]
  · exact mem_NODES (by norm_num) (by decide) (by norm_num)
      (by simp [nx_pColBug]) (by norm_num) (by simp [ny_pColBug])
  · unfold nodeCoord
    norm_num [pColBug]
  · rw [bayCornerXs, Finset.mem_image]
    rintro ⟨j, hj, heq⟩
    rw [nbx_pColBug, Finset.mem_Icc] at hj
    obtain ⟨hj1, hj2⟩ := hj
    interval_cases j <;> norm_num [pColBug] at heq

/-- C8 (amended): referential integrity — every beam endpoint is,
unconditionally for valid parameters, a node identifier produced by the node
generator for the same parameters; column endpoints are too, provided baySizeY
is a positive integer multiple of beamSpacingY, y_length is a positive integer
multiple of baySizeY, and beamSpacingX ≤ baySizeX. -/
theorem C8_referential_integrity (p : Params) (hp : p.Valid) :
    (∀ e ∈ BEAMS p, e.2.nodeA ∈ nodeIdSet p ∧ e.2.nodeB ∈ nodeIdSet p) ∧
    ((∃ m : ℕ, 1 ≤ m ∧ p.baySizeY = (m : ℚ) * p.beamSpacingY) →
      (∃ b : ℕ, 1 ≤ b ∧ p.y_length = (b : ℚ) * p.baySizeY) →
      p.beamSpacingX ≤ p.baySizeX →
      ∀ e ∈ COLUMNS p, e.2.nodeA ∈ nodeIdSet p ∧ e.2.nodeB ∈ nodeIdSet p) := by
  have hS : 1 ≤ p.numStories := hp.2.1
  have hkA := kMaxA_succ hp
  have hjB := jMaxB_succ hp
  have hsy : p.beamSpacingY ≠ 0 := ne_of_gt hp.2.2.2.2.2.2.2
  constructor
  · intro e he
    unfold BEAMS at he
    rw [List.mem_append] at he
    rcases he with he | he
    · simp only [List.mem_flatMap, List.mem_map, List.mem_range'_1] at he
      obtain ⟨i, hi, j, hj, k, hk, rfl⟩ := he
      have hA : beamANodeA p i j k = nodeId p (i + 1) j k := by
        unfold beamANodeA nodeId
        push_cast
        ring
      have hB : beamANodeB p i j k = nodeId p (i + 1) j (k + 1) := by
        unfold beamANodeB beamANodeA nodeId
        push_cast
        ring
      constructor
      · show beamANodeA p i j k ∈ _
        rw [hA]
        exact nodeId_mem_nodeIdSet (by omega) (by omega) hj.1 (by omega) hk.1
          (by omega)
      · show beamANodeB p i j k ∈ _
        rw [hB]
        exact nodeId_mem_nodeIdSet (by omega) (by omega) hj.1 (by omega)
          (by omega) (by omega)
    · simp only [List.mem_flatMap, List.mem_map, List.mem_range'_1] at he
      obtain ⟨i, hi, j, hj, k, hk, rfl⟩ := he
      have hA : beamBNodeA p i j k = nodeId p (i + 1) j k := by
        unfold beamBNodeA nodeId
        push_cast
        ring
      have hB : beamBNodeB p i j k = nodeId p (i + 1) (j + 1) k := by
        unfold beamBNodeB beamBNodeA nodeId
        push_cast
        ring
      constructor
      · show beamBNodeA p i j k ∈ _
        rw [hA]
        exact nodeId_mem_nodeIdSet (by omega) (by omega) hj.1 (by omega) hk.1
          (by omega)
      · show beamBNodeB p i j k ∈ _
        rw [hB]
        exact nodeId_mem_nodeIdSet (by omega) (by omega) (by omega) (by omega)
          hk.1 (by omega)
  · intro hm hb hxs e he
    obtain ⟨m, hm1, hmEq⟩ := hm
    obtain ⟨b, hb1, hbEq⟩ := hb
    unfold COLUMNS at he
    simp only [List.mem_flatMap, List.mem_map, List.mem_range'_1] at he
    obtain ⟨i, hi, j, hj, k, hk, rfl⟩ := he
    have hkk : 1 ≤ k := hk.1
    have hratio : p.baySizeY / p.beamSpacingY = (m : ℚ) := by
      rw [hmEq, mul_div_assoc, div_self hsy, mul_one]
    have hLyBay : p.y_length / p.baySizeY = ((b : ℕ) : ℚ) := by
      have hby0 : p.baySizeY ≠ 0 := ne_of_gt hp.2.2.2.2.2.1
      rw [hbEq, mul_div_assoc, div_self hby0, mul_one]
    have hnby : nby p = b + 1 := by
      unfold nby
      rw [hLyBay, Int.ceil_natCast]
      omega
    have hLySy : p.y_length / p.beamSpacingY = ((b * m : ℕ) : ℚ) := by
      have h1 : p.y_length = ((b * m : ℕ) : ℚ) * p.beamSpacingY := by
        rw [hbEq, hmEq]
        push_cast
        ring
      rw [h1, mul_div_assoc, div_self hsy, mul_one]
    have hny : ny p = b * m + 1 := by
      unfold ny
      rw [hLySy, Int.ceil_natCast]
      omega
    have hceil : Int.ceil (p.x_length / p.baySizeX) ≤
        Int.ceil (p.x_length / p.beamSpacingX) := by
      apply Int.ceil_mono
      have h0x : 0 ≤ p.x_length := hp.2.2.1.le
      have h0s : 0 < p.beamSpacingX := hp.2.2.2.2.2.2.1
      gcongr
    have hnbx : nbx p ≤ nx p := by
      unfold nbx nx
      omega
    have heqA : colNodeA p i j k = nodeId p i j (1 + (k - 1) * m) := by
      unfold colNodeA nodeId
      rw [hratio]
      have hcast : ((1 + (k - 1) * m : ℕ) : ℚ) = 1 + ((k : ℚ) - 1) * m := by
        push_cast [Nat.cast_sub hkk]
        ring
      rw [hcast]
      ring
    have heqB : colNodeB p i j k = nodeId p (i + 1) j (1 + (k - 1) * m) := by
      unfold colNodeB
      rw [heqA]
      unfold nodeId
      push_cast
      ring
    have hk2' : 1 + (k - 1) * m ≤ ny p := by
      rw [hny]
      have hmono : (k - 1) * m ≤ b * m := Nat.mul_le_mul_right m (by omega)
      omega
    constructor
    · show colNodeA p i j k ∈ _
      rw [heqA]
      exact nodeId_mem_nodeIdSet hi.1 (by omega) hj.1 (by omega) (by omega) hk2'
    · show colNodeB p i j k ∈ _
      rw [heqB]
      exact nodeId_mem_nodeIdSet (by omega) (by omega) hj.1 (by omega) (by omega)
        hk2'

/-- Witness for C8 at the notebook parameters (baySizeY = 3*beamSpacingY,
y_length = 4*baySizeY, beamSpacingX = baySizeX): the first Pass A beam's lower
endpoint is a generated node identifier unconditionally, and the first column's
lower endpoint 1001 is one under the divisibility conditions. -/
theorem C8_referential_integrity_witness :
    exampleParams.Valid ∧
      beamANodeA exampleParams 1 1 1 ∈ nodeIdSet exampleParams ∧
      (∃ m : ℕ, 1 ≤ m ∧
        exampleParams.baySizeY = (m : ℚ) * exampleParams.beamSpacingY) ∧
      (∃ b : ℕ, 1 ≤ b ∧
        exampleParams.y_length = (b : ℚ) * exampleParams.baySizeY) ∧
      exampleParams.beamSpacingX ≤ exampleParams.baySizeX ∧
      colNodeA exampleParams 1 1 1 ∈ nodeIdSet exampleParams := by
  have hm : ∃ m : ℕ, 1 ≤ m ∧
      exampleParams.baySizeY = (m : ℚ) * exampleParams.beamSpacingY :=
    ⟨3, by norm_num, by norm_num [exampleParams]⟩
  have hb : ∃ b : ℕ, 1 ≤ b ∧
      exampleParams.y_length = (b : ℚ) * exampleParams.baySizeY :=
    ⟨4, by norm_num, by norm_num [exampleParams]⟩
  have hmemB : (beamAId 1 1 1, beamRow (beamANodeA exampleParams 1 1 1)
      (beamANodeB exampleParams 1 1 1)) ∈ BEAMS exampleParams :=
    mem_BEAMS_A (by norm_num) (by decide) (by norm_num) (by simp [nx_example])
      (by norm_num) (by simp [kMaxA_example])
  have hmemC : (colId 1 1 1, columnRow (colNodeA exampleParams 1 1 1)
      (colNodeB exampleParams 1 1 1)) ∈ COLUMNS exampleParams :=
    mem_COLUMNS (by norm_num) (by decide) (by norm_num) (by simp [nbx_example])
      (by norm_num) (by simp [nby_example])
  have h := C8_referential_integrity exampleParams (by decide)
  exact ⟨by decide, (h.1 _ hmemB).1, hm, hb, by norm_num [exampleParams],
    (h.2 hm hb (by norm_num [exampleParams]) _ hmemC).1⟩

/-- C8 counterexample: on the valid parameter set `pDangle` (baySizeY = 30 is
not an integer multiple of beamSpacingY = 20) the generated column (1,1,2) has
the fractional lower endpoint 2005/2, which is not among the produced node
identifiers. -/
theorem C8_counterexample :
    pDangle.Valid ∧
      (colId 1 1 2, columnRow (colNodeA pDangle 1 1 2) (colNodeB pDangle 1 1 2))
        ∈ COLUMNS pDangle ∧
      colNodeA pDangle 1 1 2 ∉ nodeIdSet pDangle := by
  refine ⟨by decide, ?_, ?_⟩
  · exact mem_COLUMNS (by norm_num) (by decide) (by norm_num)
      (by simp [nbx_pDangle]) (by norm_num) (by simp [nby_pDangle])
  · have hval : colNodeA pDangle 1 1 2 = 2005 / 2 := by
      unfold colNodeA
      norm_num [pDangle, rawNy]
    rw [hval, nodeIdSet, Finset.mem_image]
    rintro ⟨⟨i, j, k⟩, hmem, heq⟩
    simp only [nodeTriples, Finset.mem_product, Finset.mem_Icc, nx_pDangle,
      ny_pDangle] at hmem
    obtain ⟨⟨hi1, hi2⟩, ⟨hj1, hj2⟩, hk1, hk2⟩ := hmem
    have hS : pDangle.numStories = 2 := rfl
    rw [hS] at hi2
    interval_cases i <;> interval_cases j <;> interval_cases k <;>
      · simp only [nodeId, rawNy_pDangle] at heq
        norm_num [pDangle] at heq
